import Mathlib

/-!
Verification of the Google Drive secret-scanning module (`google_scanning.rs`).

The development shallowly embeds the data model and the scanning pipeline of
the module: the `GDriveFinding` and `GDriveFileInfo` records, the metadata
constructor `GDriveFileInfo::new`, and the orchestrator
`GDriveScanner::perform_scan` together with its line splitting, ASCII
decoding and finding assembly.

External collaborators are modelled as explicit inputs:
* the Google Drive metadata lookup (`hub.files().get(...)`) becomes an
  `Except String FileObject` argument to `GDriveFileInfo.new`;
* the content export (`gdrive_file_contents`) becomes an
  `Except String (List Byte)` argument to `perform_scan`;
* the `SecretScanner` pattern matcher and the entropy detector become
  function-valued fields of the `SecretScanner` structure.

Rust panics (from `.unwrap()` on `Err`/`None`) are modelled by explicit
`panic` constructors of the result types, since the Rust functions in
question do not return errors at those points.

Bytes are modelled as `Nat`, with values below `128` being the valid ASCII
range; match spans out of a line's range are clamped by `sliceBytes` (the
regex engine only produces in-range spans, so this point is never exercised).
-/

namespace RustyHog

/-- A byte of the exported document content. Values `< 128` are valid ASCII. -/
abbrev Byte := Nat

/-- Embeds the `GDriveFinding` struct: one found secret.  Field-for-field the
Rust struct (`date`, `diff`, `path`, `strings_found`, `g_drive_id`, `reason`,
`web_link`), with derived structural equality mirroring the derived
`PartialEq`/`Eq`/`Hash` used by the `HashSet` deduplication. -/
structure GDriveFinding where
  date : String
  diff : String
  path : String
  strings_found : List String
  g_drive_id : String
  reason : String
  web_link : String
deriving DecidableEq, Repr

/-- Embeds the `GDriveFileInfo` struct: metadata describing one Google Drive
file. -/
structure GDriveFileInfo where
  file_id : String
  mime_type : String
  modified_time : String
  web_link : String
  parents : List String
  name : String
  path : String
deriving DecidableEq, Repr

/-- Embeds the metadata record returned by the Drive API `files().get` call
(the fields of `google_drive3::File` that `GDriveFileInfo::new` reads).  Every
field is optional in the remote schema, hence `Option`. -/
structure FileObject where
  modified_time : Option String
  web_view_link : Option String
  parents : Option (List String)
  name : Option String
  mime_type : Option String
deriving DecidableEq, Repr

/-- Result of `GDriveFileInfo::new`.  `ok` and `err` are the two sides of the
Rust `Result<Self, SimpleError>`; `panicked` marks a Rust panic caused by
`.unwrap()` on a missing metadata field (the Rust function aborts there
instead of returning). -/
inductive NewResult where
  | ok (info : GDriveFileInfo)
  | err (msg : String)
  | panicked
deriving DecidableEq, Repr

/-- Embeds the native-MIME-to-export-MIME `match` inside `GDriveFileInfo::new`
(lines 186-190 of the source): spreadsheet exports as CSV, document as plain
text, anything else is an explicit `unknown doc type` error. -/
def resolveMime (u : String) : Except String String :=
  if u = "application/vnd.google-apps.spreadsheet" then Except.ok "text/csv"
  else if u = "application/vnd.google-apps.document" then Except.ok "text/plain"
  else Except.error ("unknown doc type " ++ u)

/-- Embeds `GDriveFileInfo::new`.  The remote metadata lookup is abstracted
into the `hub_result` argument: `Except.error e` models the API call failing
with error `e`, `Except.ok fo` models it returning the record `fo`.  The Rust
code `.unwrap()`s `modified_time`, `web_view_link` and `name`, and
`.unwrap()`s `mime_type` before the match — a missing value there is a panic
(`NewResult.panicked`) — while missing `parents` defaults to the empty vector
via `unwrap_or_else(Vec::new)`. -/
def GDriveFileInfo.new (file_id : String) (hub_result : Except String FileObject) :
    NewResult :=
  match hub_result with
  | Except.error e => NewResult.err ("failed accessing Google Metadata API " ++ e)
  | Except.ok file_object =>
    match file_object.modified_time with
    | none => NewResult.panicked
    | some modified_time =>
      match file_object.web_view_link with
      | none => NewResult.panicked
      | some web_link =>
        let parents := file_object.parents.getD []
        match file_object.name with
        | none => NewResult.panicked
        | some name =>
          let path := String.intercalate "/" parents ++ "/" ++ name
          match file_object.mime_type with
          | none => NewResult.panicked
          | some native =>
            match resolveMime native with
            | Except.error msg => NewResult.err msg
            | Except.ok mime_type =>
              NewResult.ok
                { file_id := file_id
                  mime_type := mime_type
                  modified_time := modified_time
                  web_link := web_link
                  parents := parents
                  name := name
                  path := path }

/-- Embeds the `SecretScanner` collaborator: `matches` is the pattern matcher
(`self.secret_scanner.matches(line)`, a map from rule name to the list of
byte-offset spans; `matches` is a reserved word in Lean, hence the field name
`matchesMap`), `entropy_findings` the entropy detector
(`SecretScanner::entropy_findings(line)`). -/
structure SecretScanner where
  matchesMap : List Byte → List (String × List (Nat × Nat))
  entropy_findings : List Byte → List String

/-- Embeds the `GDriveScanner` struct wrapping a `SecretScanner`. -/
structure GDriveScanner where
  secret_scanner : SecretScanner

/-- Embeds `ASCII.decode(bytes, DecoderTrap::Ignore)`: bytes outside the
ASCII range are dropped, the rest become characters, and the decode always
succeeds (the `Ignore` trap never raises), hence always `Except.ok`. -/
def asciiDecodeIgnore (bytes : List Byte) : Except Unit String :=
  Except.ok (String.mk ((bytes.filter (fun b => b < 128)).map Char.ofNat))

/-- Embeds the `decode(...).unwrap_or_else(|_| "<STRING DECODE ERROR>")`
pattern used for both the `diff` field and each `strings_found` entry: the
decoded string on success, the sentinel on decoder failure. -/
def decodeOrSentinel (bytes : List Byte) : String :=
  match asciiDecodeIgnore bytes with
  | Except.ok s => s
  | Except.error _ => "<STRING DECODE ERROR>"

/-- Embeds the slice `&new_line[start..end]` taken for each match span. -/
def sliceBytes (line : List Byte) (s e : Nat) : List Byte :=
  (line.take e).drop s

/-- Embeds `buffer.split(|x| (*x as char) == '\n')`: split on the line-feed
byte `10`, excluding the delimiter, preserving empty segments (Rust slice
`split` yields one empty subslice for the empty slice, and an empty final
segment after a trailing delimiter). -/
def splitOnLF : List Byte → List (List Byte)
  | [] => [[]]
  | b :: rest =>
    if b = 10 then [] :: splitOnLF rest
    else
      match splitOnLF rest with
      | [] => [[b]]
      | seg :: segs => (b :: seg) :: segs

/-- Rejoins segments with the line-feed byte `10` — the inverse operation used
to state losslessness of `splitOnLF` (it is `List.intercalate [10]`). -/
def joinLF : List (List Byte) → List Byte
  | [] => []
  | [seg] => seg
  | seg :: rest => seg ++ 10 :: joinLF rest

/-- Embeds the body of the inner pattern loop of `perform_scan` for one
`(reason, match_iterator)` entry of the matches map: decode every span into
`secrets`, and build a `GDriveFinding` only when `secrets` is non-empty
(`if !secrets.is_empty()`). -/
def emitPattern (gdrivefile : GDriveFileInfo) (new_line : List Byte)
    (entry : String × List (Nat × Nat)) : Option GDriveFinding :=
  let secrets := entry.2.map (fun m => decodeOrSentinel (sliceBytes new_line m.1 m.2))
  if secrets.isEmpty then none
  else
    some
      { diff := decodeOrSentinel new_line
        date := gdrivefile.modified_time
        path := gdrivefile.path
        strings_found := secrets
        g_drive_id := gdrivefile.file_id
        reason := entry.1
        web_link := gdrivefile.web_link }

/-- All pattern findings that `perform_scan` inserts for one line: one
optional finding per entry of `self.secret_scanner.matches(line)`. -/
def patternFindingsForLine (ss : SecretScanner) (gdrivefile : GDriveFileInfo)
    (new_line : List Byte) : List GDriveFinding :=
  (ss.matchesMap new_line).filterMap (emitPattern gdrivefile new_line)

/-- Embeds the entropy branch of `perform_scan` for one line: call the
entropy detector and insert one finding with reason `"Entropy"` when the
result is non-empty (`if !ef.is_empty()`). -/
def entropyFindingsForLine (ss : SecretScanner) (gdrivefile : GDriveFileInfo)
    (new_line : List Byte) : List GDriveFinding :=
  let ef := ss.entropy_findings new_line
  if ef.isEmpty then []
  else
    [ { diff := decodeOrSentinel new_line
        date := gdrivefile.modified_time
        path := gdrivefile.path
        strings_found := ef
        g_drive_id := gdrivefile.file_id
        reason := "Entropy"
        web_link := gdrivefile.web_link } ]

/-- All findings `perform_scan` inserts while processing one line: the
pattern findings always, the entropy findings only under the
`if scan_entropy` gate. -/
def lineFindings (ss : SecretScanner) (gdrivefile : GDriveFileInfo)
    (scan_entropy : Bool) (new_line : List Byte) : List GDriveFinding :=
  patternFindingsForLine ss gdrivefile new_line ++
    (if scan_entropy then entropyFindingsForLine ss gdrivefile new_line else [])

/-- The findings of the whole main loop, in emission order, before the
deduplicating `HashSet` collapses duplicates. -/
def scanFindingsList (ss : SecretScanner) (gdrivefile : GDriveFileInfo)
    (scan_entropy : Bool) (buffer : List Byte) : List GDriveFinding :=
  (splitOnLF buffer).flatMap (lineFindings ss gdrivefile scan_entropy)

/-- The deduplicated result set accumulated by the `HashSet<GDriveFinding>`
(and returned via the final `HashSet::from_iter`): the emission list as a
finite set under full structural equality. -/
def scanBuffer (ss : SecretScanner) (gdrivefile : GDriveFileInfo)
    (scan_entropy : Bool) (buffer : List Byte) : Finset GDriveFinding :=
  (scanFindingsList ss gdrivefile scan_entropy buffer).toFinset

/-- Outcome of `perform_scan`.  The Rust function returns a bare
`HashSet<GDriveFinding>` (constructor `ok`); `panicked` marks the Rust panic
raised by `.unwrap()` when content retrieval fails — the function has no
error-return path. -/
inductive ScanOutcome where
  | ok (findings : Finset GDriveFinding)
  | panicked (msg : String)
deriving DecidableEq

/-- Embeds `GDriveScanner::perform_scan`.  The `gdrive_file_contents` network
call is abstracted into the `retrieval` argument (its `Result<Vec<u8>,
SimpleError>`): the Rust code `.unwrap()`s it, so an `Except.error` input is a
panic, while an `Except.ok` buffer is split into lines and scanned. -/
def GDriveScanner.perform_scan (self : GDriveScanner) (gdrivefile : GDriveFileInfo)
    (retrieval : Except String (List Byte)) (scan_entropy : Bool) : ScanOutcome :=
  match retrieval with
  | Except.error e => ScanOutcome.panicked e
  | Except.ok buffer =>
      ScanOutcome.ok (scanBuffer self.secret_scanner gdrivefile scan_entropy buffer)

/-- Concrete file metadata used to evaluate the scan at specific inputs. -/
def sampleInfo : GDriveFileInfo :=
  { file_id := "file0"
    mime_type := "text/plain"
    modified_time := "2019-12-21T16:32:31+00:00"
    web_link := "http://drive.google.com/docs/file0"
    parents := []
    name := "doc"
    path := "/doc" }

/-- A scanner whose pattern matcher and entropy detector report nothing. -/
def emptyScanner : SecretScanner :=
  { matchesMap := fun _ => []
    entropy_findings := fun _ => [] }

/-- A scanner with one pattern rule `GenericRule` that reports the span
`(0, 1)` on every line, and no entropy hits. -/
def oneRuleScanner : SecretScanner :=
  { matchesMap := fun _ => [("GenericRule", [(0, 1)])]
    entropy_findings := fun _ => [] }

/-- An entropy detector reporting nothing. -/
def entropyA : List Byte → List String := fun _ => []

/-- An entropy detector reporting the substring `zz` on every line. -/
def entropyB : List Byte → List String := fun _ => ["zz"]

/-- The finding `oneRuleScanner` produces on the line `[128]`, whose only
byte is outside the ASCII range: both the context and the single matched
string decode to the empty string. -/
def nonAsciiFinding : GDriveFinding :=
  { date := "2019-12-21T16:32:31+00:00"
    diff := ""
    path := "/doc"
    strings_found := [""]
    g_drive_id := "file0"
    reason := "GenericRule"
    web_link := "http://drive.google.com/docs/file0" }

/-- The finding `oneRuleScanner` produces on the line `[65]` (the byte of
the character A). -/
def asciiFinding : GDriveFinding :=
  { date := "2019-12-21T16:32:31+00:00"
    diff := "A"
    path := "/doc"
    strings_found := ["A"]
    g_drive_id := "file0"
    reason := "GenericRule"
    web_link := "http://drive.google.com/docs/file0" }

/-- A metadata record with every required field present, of native document
type, and with the `parents` field absent. -/
def sampleFileObject : FileObject :=
  { modified_time := some "2019-12-21T16:32:31+00:00"
    web_view_link := some "http://drive.google.com/docs/file0"
    parents := none
    name := some "doc"
    mime_type := some "application/vnd.google-apps.document" }

/-- The `GDriveFileInfo` that `GDriveFileInfo.new` builds from
`sampleFileObject`. -/
def sampleNewInfo : GDriveFileInfo :=
  { file_id := "file0"
    mime_type := "text/plain"
    modified_time := "2019-12-21T16:32:31+00:00"
    web_link := "http://drive.google.com/docs/file0"
    parents := []
    name := "doc"
    path := "/doc" }

/-- The split of a buffer is never the empty list of segments (Rust slice
`split` always yields at least one subslice). -/
theorem splitOnLF_ne_nil (l : List Byte) : splitOnLF l ≠ [] := by
  cases l with
  | nil => simp [splitOnLF]
  | cons b rest =>
    unfold splitOnLF
    split
    · simp
    · split <;> simp

/-- Unfolding `joinLF` on a head segment followed by a non-empty tail. -/
theorem joinLF_cons (a : List Byte) (s : List (List Byte)) (h : s ≠ []) :
    joinLF (a :: s) = a ++ 10 :: joinLF s := by
  cases s with
  | nil => exact absurd rfl h
  | cons b t => rfl

/-- Splitting on the line-feed byte and rejoining with it reproduce the
original buffer. -/
theorem joinLF_splitOnLF (l : List Byte) : joinLF (splitOnLF l) = l := by
  induction l with
  | nil => rfl
  | cons b rest ih =>
    by_cases hb : b = 10
    · have h1 : splitOnLF (b :: rest) = [] :: splitOnLF rest := by
        simp [splitOnLF, hb]
      rw [h1, joinLF_cons _ _ (splitOnLF_ne_nil rest), ih, hb]
      rfl
    · rcases h : splitOnLF rest with _ | ⟨seg, segs⟩
      · exact absurd h (splitOnLF_ne_nil rest)
      · have h1 : splitOnLF (b :: rest) = (b :: seg) :: segs := by
          simp [splitOnLF, hb, h]
        have h2 : joinLF ((b :: seg) :: segs) = b :: joinLF (seg :: segs) := by
          cases segs <;> rfl
        rw [h1, h2, ← ih, h]

/-- No segment produced by the split contains the line-feed byte. -/
theorem not_lf_mem_splitOnLF (l : List Byte) :
    ∀ seg ∈ splitOnLF l, (10 : Byte) ∉ seg := by
  induction l with
  | nil =>
    intro seg h
    simp [splitOnLF] at h
    simp [h]
  | cons b rest ih =>
    intro seg hseg
    by_cases hb : b = 10
    · rw [show splitOnLF (b :: rest) = [] :: splitOnLF rest from by
        simp [splitOnLF, hb]] at hseg
      rcases List.mem_cons.mp hseg with h | h
      · simp [h]
      · exact ih seg h
    · rcases h : splitOnLF rest with _ | ⟨s0, segs⟩
      · exact absurd h (splitOnLF_ne_nil rest)
      · rw [show splitOnLF (b :: rest) = (b :: s0) :: segs from by
          simp [splitOnLF, hb, h]] at hseg
        rcases List.mem_cons.mp hseg with h1 | h1
        · subst h1
          intro hmem
          rcases List.mem_cons.mp hmem with h2 | h2
          · exact hb h2.symm
          · exact ih s0 (by rw [h]; exact List.mem_cons_self _ _) h2
        · exact ih seg (by rw [h]; exact List.mem_cons_of_mem _ h1)

/-- A pattern finding inherits its `reason` from the rule name of the
matches-map entry it was built from. -/
theorem emitPattern_reason (g : GDriveFileInfo) (line : List Byte)
    (r : String) (spans : List (Nat × Nat)) (f : GDriveFinding)
    (h : emitPattern g line (r, spans) = some f) : f.reason = r := by
  cases spans with
  | nil => simp [emitPattern] at h
  | cons a t =>
    simp only [emitPattern, List.map_cons, List.isEmpty_cons, Bool.false_eq_true,
      if_false, Option.some.injEq] at h
    rw [← h]

/-- Membership in the result set is membership in the emission list of some
line of the split. -/
theorem mem_scanBuffer (ss : SecretScanner) (g : GDriveFileInfo) (flag : Bool)
    (buf : List Byte) (f : GDriveFinding) :
    f ∈ scanBuffer ss g flag buf ↔
      ∃ line ∈ splitOnLF buf, f ∈ lineFindings ss g flag line := by
  simp [scanBuffer, scanFindingsList, List.mem_flatMap]

/-- Computation of `GDriveFileInfo.new` on a metadata record with all
required fields present: the outcome is decided by the export-MIME table. -/
theorem new_all_some_eq (file_id mt wl nm mty : String) (ps : Option (List String)) :
    GDriveFileInfo.new file_id (Except.ok ⟨some mt, some wl, ps, some nm, some mty⟩) =
      match resolveMime mty with
      | Except.error msg => NewResult.err msg
      | Except.ok m =>
          NewResult.ok
            { file_id := file_id
              mime_type := m
              modified_time := mt
              web_link := wl
              parents := ps.getD []
              name := nm
              path := String.intercalate "/" (ps.getD []) ++ "/" ++ nm } := rfl

/-- Records with all required metadata fields present never make
`GDriveFileInfo.new` panic: the remaining outcomes are the export-type table
hit or the unknown-type error. -/
theorem new_all_some (file_id mt wl nm mty : String) (ps : Option (List String)) :
    GDriveFileInfo.new file_id (Except.ok ⟨some mt, some wl, ps, some nm, some mty⟩) ≠
      NewResult.panicked := by
  rw [new_all_some_eq]
  cases h : resolveMime mty <;> simp

/-- Exact characterization of the panic of `GDriveFileInfo.new` on a
successful metadata lookup: it panics precisely when one of the four
`.unwrap()`ed fields is absent. -/
theorem new_panicked_iff (file_id : String) (mt wl nm mty : Option String)
    (ps : Option (List String)) :
    GDriveFileInfo.new file_id (Except.ok ⟨mt, wl, ps, nm, mty⟩) = NewResult.panicked ↔
      (mt = none ∨ wl = none ∨ nm = none ∨ mty = none) := by
  constructor
  · intro hp
    cases mt with
    | none => exact Or.inl rfl
    | some mt' =>
      cases wl with
      | none => exact Or.inr (Or.inl rfl)
      | some wl' =>
        cases nm with
        | none => exact Or.inr (Or.inr (Or.inl rfl))
        | some nm' =>
          cases mty with
          | none => exact Or.inr (Or.inr (Or.inr rfl))
          | some mty' => exact absurd hp (new_all_some file_id mt' wl' nm' mty' ps)
  · intro h
    rcases h with h | h | h | h
    · subst h; rfl
    · subst h; cases mt <;> rfl
    · subst h; cases mt <;> cases wl <;> rfl
    · subst h; cases mt <;> cases wl <;> cases nm <;> rfl

/-- Claim C1, counterexample.  The claim states that a content-retrieval
failure is surfaced to the caller of `perform_scan` as an explicit failure
value.  It is not: `perform_scan` returns a bare finding set and `.unwrap()`s
the retrieval result, so at the concrete retrieval error `"failed export"`
the call panics (aborts) instead of returning an error value. -/
theorem perform_scan_panics_on_retrieval_error :
    GDriveScanner.perform_scan ⟨emptyScanner⟩ sampleInfo
        (Except.error "failed export") false =
      ScanOutcome.panicked "failed export" := rfl

/-- Claim C1, amended.  `perform_scan` fails only on content-retrieval
error, and on such an error no Finding set — partial or otherwise — is
produced; but the failure is a panic of the scanning process, not an error
value handed to the caller.  On successful retrieval a Finding set is always
returned. -/
theorem perform_scan_fails_only_on_retrieval (self : GDriveScanner)
    (gi : GDriveFileInfo) (flag : Bool) :
    (∀ e : String,
      self.perform_scan gi (Except.error e) flag = ScanOutcome.panicked e) ∧
    (∀ buf : List Byte,
      self.perform_scan gi (Except.ok buf) flag =
        ScanOutcome.ok (scanBuffer self.secret_scanner gi flag buf)) :=
  ⟨fun _ => rfl, fun _ => rfl⟩

/-- Claim C2, counterexample.  The claim states that no input — including a
metadata record with missing optional fields — can make the core panic.  But
`GDriveFileInfo::new` calls `.unwrap()` on the optional `modified_time`
field: at the concrete record that lacks `modified_time` (all other fields
present, native type in the export table), construction panics. -/
theorem new_panics_on_missing_modified_time :
    GDriveFileInfo.new "file0"
        (Except.ok
          ⟨none, some "http://drive.google.com/docs/file0", some [], some "doc",
            some "application/vnd.google-apps.document"⟩) =
      NewResult.panicked := rfl

/-- Claim C2, amended.  The core can panic, in exactly these places: on a
successful metadata lookup, `GDriveFileInfo.new` panics precisely when one of
`modified_time`, `web_view_link`, `name`, `mime_type` is missing (only a
missing `parents` defaults to the empty sequence); a failed metadata lookup
is reported as an explicit error value; and `perform_scan` panics on
content-retrieval failure. -/
theorem metadata_panic_boundary (file_id e : String) (fo : FileObject)
    (gs : GDriveScanner) (gi : GDriveFileInfo) (flag : Bool) :
    (GDriveFileInfo.new file_id (Except.ok fo) = NewResult.panicked ↔
      (fo.modified_time = none ∨ fo.web_view_link = none ∨
        fo.name = none ∨ fo.mime_type = none)) ∧
    GDriveFileInfo.new file_id (Except.error e) =
      NewResult.err ("failed accessing Google Metadata API " ++ e) ∧
    gs.perform_scan gi (Except.error e) flag = ScanOutcome.panicked e ∧
    (∀ info : GDriveFileInfo, fo.parents = none →
      GDriveFileInfo.new file_id (Except.ok fo) = NewResult.ok info →
        info.parents = []) := by
  obtain ⟨mt, wl, ps, nm, mty⟩ := fo
  refine ⟨new_panicked_iff file_id mt wl nm mty ps, rfl, rfl, ?_⟩
  intro info hps hok
  cases hps
  cases mt with
  | none => exact absurd hok (by simp [GDriveFileInfo.new])
  | some mt' =>
    cases wl with
    | none => exact absurd hok (by simp [GDriveFileInfo.new])
    | some wl' =>
      cases nm with
      | none => exact absurd hok (by simp [GDriveFileInfo.new])
      | some nm' =>
        cases mty with
        | none => exact absurd hok (by simp [GDriveFileInfo.new])
        | some mty' =>
          rw [new_all_some_eq] at hok
          cases h : resolveMime mty' with
          | error msg => rw [h] at hok; simp at hok
          | ok m =>
            rw [h] at hok
            simp only [NewResult.ok.injEq] at hok
            rw [← hok]
            rfl

/-- Claim C2, witness for the amended theorem: at the concrete metadata
record `sampleFileObject`, whose `parents` field is absent, construction
succeeds and the resulting `parents` is the empty sequence. -/
theorem metadata_panic_boundary_witness :
    GDriveFileInfo.new "file0" (Except.ok sampleFileObject) =
        NewResult.ok sampleNewInfo ∧
    sampleNewInfo.parents = [] := by
  have hnew : GDriveFileInfo.new "file0" (Except.ok sampleFileObject) =
      NewResult.ok sampleNewInfo := by decide
  exact ⟨hnew,
    (metadata_panic_boundary "file0" "e0" sampleFileObject ⟨emptyScanner⟩
        sampleInfo false).2.2.2 sampleNewInfo rfl hnew⟩

/-- Claim C3, counterexample.  The claim states that when every matched span
of a rule decodes to the empty string, no Finding is emitted for that rule on
that line.  On the concrete line `[128]` (a single non-ASCII byte) with a
rule matching span `(0, 1)`, the only matched span decodes to the empty
string, yet the scan emits a Finding for that rule: the emission check is on
the number of spans, not on the decoded content. -/
theorem finding_emitted_with_all_empty_decodes :
    decodeOrSentinel (sliceBytes [128] 0 1) = "" ∧
    scanBuffer oneRuleScanner sampleInfo false [128] = {nonAsciiFinding} ∧
    nonAsciiFinding.strings_found = [""] := by
  refine ⟨by decide, by decide, rfl⟩

/-- Claim C3, amended.  A Finding is emitted for a rule on a line exactly
when the rule has at least one matched span on that line; the decoded content
of the spans is not consulted, so spans decoding to empty strings still
produce a Finding. -/
theorem emitPattern_none_iff_no_spans (gi : GDriveFileInfo) (line : List Byte)
    (r : String) (spans : List (Nat × Nat)) :
    emitPattern gi line (r, spans) = none ↔ spans = [] := by
  cases spans with
  | nil => simp [emitPattern]
  | cons a t => simp [emitPattern]

/-- Claim C4.  With `scan_entropy = false`, `perform_scan` never invokes the
entropy detector — the result is independent of the entropy component of the
scanner — and, since the spec keeps rule names distinct from the fixed
category label, whenever no pattern rule of the matcher is named `Entropy`,
no returned Finding has reason `Entropy`, regardless of content. -/
theorem entropy_gating (m : List Byte → List (String × List (Nat × Nat)))
    (e1 e2 : List Byte → List String) (gi : GDriveFileInfo) (buf : List Byte) :
    GDriveScanner.perform_scan ⟨⟨m, e1⟩⟩ gi (Except.ok buf) false =
      GDriveScanner.perform_scan ⟨⟨m, e2⟩⟩ gi (Except.ok buf) false ∧
    ((∀ line r spans, (r, spans) ∈ m line → r ≠ "Entropy") →
      ∀ f ∈ scanBuffer ⟨m, e1⟩ gi false buf, f.reason ≠ "Entropy") := by
  constructor
  · have hline : lineFindings ⟨m, e1⟩ gi false = lineFindings ⟨m, e2⟩ gi false := by
      funext line
      simp [lineFindings, patternFindingsForLine]
    simp [GDriveScanner.perform_scan, scanBuffer, scanFindingsList, hline]
  · intro hno f hf
    rw [mem_scanBuffer] at hf
    obtain ⟨line, hline, hfl⟩ := hf
    simp only [lineFindings, Bool.false_eq_true, if_false, List.append_nil] at hfl
    obtain ⟨entry, hentry, hemit⟩ := List.mem_filterMap.mp hfl
    obtain ⟨r, spans⟩ := entry
    rw [emitPattern_reason gi line r spans f hemit]
    exact hno line r spans hentry

/-- Claim C4, witness: with the concrete one-rule matcher on the one-line
buffer `[65]`, two scans differing only in the entropy detector coincide when
`scan_entropy = false`, and the finding that scan yields does not carry the
reason `Entropy`. -/
theorem entropy_gating_witness :
    GDriveScanner.perform_scan ⟨⟨oneRuleScanner.matchesMap, entropyA⟩⟩ sampleInfo
        (Except.ok [65]) false =
      GDriveScanner.perform_scan ⟨⟨oneRuleScanner.matchesMap, entropyB⟩⟩ sampleInfo
        (Except.ok [65]) false ∧
    asciiFinding.reason ≠ "Entropy" := by
  have h := entropy_gating oneRuleScanner.matchesMap entropyA entropyB sampleInfo [65]
  refine ⟨h.1, ?_⟩
  refine h.2 ?_ asciiFinding (by decide)
  intro line r spans hmem
  simp [oneRuleScanner] at hmem
  rw [hmem.1]
  decide

/-- Claim C5.  The result set deduplicates by full structural equality over
all seven fields: membership in the result set is exactly membership in the
list of emitted findings (so field-identical emissions collapse to one
element), and equality of findings is equivalent to equality on each of
`date`, `diff`, `path`, `strings_found`, `g_drive_id`, `reason`, `web_link`
(so findings differing in any field — e.g. only in `reason` — stay distinct
members). -/
theorem dedup_by_full_field_equality (ss : SecretScanner) (gi : GDriveFileInfo)
    (flag : Bool) (buf : List Byte) :
    (∀ f : GDriveFinding,
      f ∈ scanBuffer ss gi flag buf ↔ f ∈ scanFindingsList ss gi flag buf) ∧
    (∀ f f' : GDriveFinding, f = f' ↔
      (f.date = f'.date ∧ f.diff = f'.diff ∧ f.path = f'.path ∧
        f.strings_found = f'.strings_found ∧ f.g_drive_id = f'.g_drive_id ∧
        f.reason = f'.reason ∧ f.web_link = f'.web_link)) := by
  constructor
  · intro f
    simp [scanBuffer]
  · intro f f'
    cases f
    cases f'
    simp

/-- Claim C6.  The scan is deterministic: two runs of `perform_scan` on
identical inputs (same scanner configuration, metadata, retrieved content
and entropy flag) yield equal outcomes, and the deduplicated result set does
not depend on the order in which the emitted findings are inserted. -/
theorem scan_deterministic (self : GDriveScanner) (gi : GDriveFileInfo)
    (retrieval : Except String (List Byte)) (flag : Bool) :
    self.perform_scan gi retrieval flag = self.perform_scan gi retrieval flag ∧
    ∀ buf : List Byte,
      (scanFindingsList self.secret_scanner gi flag buf).toFinset =
        (scanFindingsList self.secret_scanner gi flag buf).reverse.toFinset :=
  ⟨rfl, fun _ => (List.toFinset_reverse).symm⟩

/-- Claim C7.  Splitting a buffer on the line-feed byte `10` excludes the
delimiter from every segment, and rejoining the segments with line-feed (in
their original order, empty segments included) reproduces the buffer
exactly; the rejoin `joinLF` is `List.intercalate [10]`. -/
theorem split_join_roundtrip (buffer : List Byte) :
    joinLF (splitOnLF buffer) = buffer ∧
    (∀ seg ∈ splitOnLF buffer, (10 : Byte) ∉ seg) ∧
    joinLF (splitOnLF buffer) = List.intercalate [10] (splitOnLF buffer) := by
  refine ⟨joinLF_splitOnLF buffer, not_lf_mem_splitOnLF buffer, ?_⟩
  generalize splitOnLF buffer = segs
  induction segs with
  | nil => rfl
  | cons a t ih =>
    cases t with
    | nil => simp [joinLF, List.intercalate, List.intersperse_single]
    | cons b u =>
      rw [joinLF_cons a (b :: u) (by simp), ih]
      simp [List.intercalate, List.intersperse_cons₂]

/-- Claim C8.  Decoding a byte segment never raises: the `diff` value is
either the lossy ASCII decoding of the segment (bytes outside the ASCII
range dropped) or the literal sentinel, and after a successful retrieval the
scan always completes with a finding set, whatever bytes the document
contains — a malformed line never aborts the scan. -/
theorem decode_total_or_sentinel (bytes : List Byte) :
    (decodeOrSentinel bytes =
        String.mk ((bytes.filter (fun b => b < 128)).map Char.ofNat) ∨
      decodeOrSentinel bytes = "<STRING DECODE ERROR>") ∧
    ∀ (self : GDriveScanner) (gi : GDriveFileInfo) (flag : Bool) (buf : List Byte),
      ∃ s : Finset GDriveFinding,
        self.perform_scan gi (Except.ok buf) flag = ScanOutcome.ok s :=
  ⟨Or.inl rfl, fun self gi flag buf =>
    ⟨scanBuffer self.secret_scanner gi flag buf, rfl⟩⟩

/-- Claim C9.  The native-type to export-MIME table of `GDriveFileInfo::new`
is exact: native spreadsheet exports as `text/csv`, native document as
`text/plain`, and any other native type makes construction fail with an
`unknown doc type` error naming the offending type — never a silent
default. -/
theorem mime_table_exact (file_id mt wl nm u : String) (ps : List String)
    (hu1 : u ≠ "application/vnd.google-apps.spreadsheet")
    (hu2 : u ≠ "application/vnd.google-apps.document") :
    resolveMime "application/vnd.google-apps.spreadsheet" = Except.ok "text/csv" ∧
    resolveMime "application/vnd.google-apps.document" = Except.ok "text/plain" ∧
    resolveMime u = Except.error ("unknown doc type " ++ u) ∧
    GDriveFileInfo.new file_id
        (Except.ok ⟨some mt, some wl, some ps, some nm, some u⟩) =
      NewResult.err ("unknown doc type " ++ u) := by
  have hr : resolveMime u = Except.error ("unknown doc type " ++ u) := by
    simp [resolveMime, hu1, hu2]
  refine ⟨rfl, rfl, hr, ?_⟩
  rw [new_all_some_eq, hr]

/-- Claim C9, witness: the unsupported native type
`application/vnd.unknown-type` is rejected with an error naming it, both by
the table and by the full constructor. -/
theorem mime_table_exact_witness :
    resolveMime "application/vnd.unknown-type" =
        Except.error ("unknown doc type " ++ "application/vnd.unknown-type") ∧
    GDriveFileInfo.new "file0"
        (Except.ok
          ⟨some "t", some "w", some [], some "doc",
            some "application/vnd.unknown-type"⟩) =
      NewResult.err ("unknown doc type " ++ "application/vnd.unknown-type") := by
  have h := mime_table_exact "file0" "t" "w" "doc" "application/vnd.unknown-type" []
    (by decide) (by decide)
  exact ⟨h.2.2.1, h.2.2.2⟩

/-- Claim C10.  For a pattern finding, `strings_found` holds exactly one
entry per matched span, in the matcher's order, each entry being the
lossy-or-sentinel decoding of that span's bytes — entries may be empty
strings and are produced by the same decode-or-sentinel policy as the
context field. -/
theorem strings_found_per_span (gi : GDriveFileInfo) (line : List Byte)
    (r : String) (spans : List (Nat × Nat)) (f : GDriveFinding)
    (h : emitPattern gi line (r, spans) = some f) :
    f.strings_found =
        spans.map (fun sp => decodeOrSentinel (sliceBytes line sp.1 sp.2)) ∧
    f.strings_found.length = spans.length := by
  cases spans with
  | nil => simp [emitPattern] at h
  | cons a t =>
    simp only [emitPattern, List.map_cons, List.isEmpty_cons, Bool.false_eq_true,
      if_false, Option.some.injEq] at h
    rw [← h]
    simp

/-- Claim C10, witness: on the line `[128]` with the single span `(0, 1)`,
the emitted finding's `strings_found` is exactly the per-span decoding — here
the single empty string, since the span's only byte is non-ASCII. -/
theorem strings_found_per_span_witness :
    emitPattern sampleInfo [128] ("GenericRule", [(0, 1)]) = some nonAsciiFinding ∧
    nonAsciiFinding.strings_found =
        [((0 : Nat), (1 : Nat))].map
          (fun sp => decodeOrSentinel (sliceBytes [128] sp.1 sp.2)) ∧
    nonAsciiFinding.strings_found = [""] := by
  have he : emitPattern sampleInfo [128] ("GenericRule", [(0, 1)]) =
      some nonAsciiFinding := by decide
  exact ⟨he,
    (strings_found_per_span sampleInfo [128] "GenericRule" [(0, 1)]
        nonAsciiFinding he).1, rfl⟩

end RustyHog
